import Mathlib

/-!
Verification of the NHL action wrappers (actions.py / support.py).

The Python module is embedded shallowly: JSON values become an inductive
tree, the in-place noise-stripping traversals become pure structural
transforms, HTTP responses become an explicit (status, body) record, and
each action becomes a pure function from its inputs (team directory,
query, upstream response) to `Except Err (payload, file writes)`.
Python exceptions are modelled by the `Err` error type: `ValueError
"Team not found"` as `NotFoundError`, `response.raise_for_status()` as
`UpstreamError`, `ActionError "Team ... not found"` as
`EmptyResultError`, and a crash of the extraction loop in `get_teams`
(subscripting `None`, a missing "default" key, ...) as
`ExtractionError`.
-/

namespace NHL

/-- A JSON value, as produced by `response.json()`: Python's `None`,
booleans, numbers, strings, lists and dicts (dicts as ordered key/value
lists, mirroring Python's insertion order and unique keys). -/
inductive Json where
  | null
  | bool (b : Bool)
  | num (n : Int)
  | str (s : String)
  | arr (elems : List Json)
  | obj (members : List (String × Json))
deriving Inhabited

/-- Python dict lookup `d.get(k)` on the member list: the value of the
first member with the given key, if any. -/
def lookupField (k : String) : List (String × Json) → Option Json
  | [] => none
  | (k2, v) :: fs => if k2 = k then some v else lookupField k fs

/-- Python truthiness `not data` (negated): `None`, `False`, `0`, `""`,
`[]` and `{}` are falsy, everything else is truthy. -/
def Json.falsy : Json → Bool
  | .null => true
  | .bool b => !b
  | .num n => n = 0
  | .str s => s.isEmpty
  | .arr xs => xs.isEmpty
  | .obj fs => fs.isEmpty

/-- True exactly on the scalar leaves (null, booleans, numbers, strings). -/
def Json.isScalar : Json → Bool
  | .null => true
  | .bool _ => true
  | .num _ => true
  | .str _ => true
  | .arr _ => false
  | .obj _ => false

mutual
/-- The generic body shared by `remove_headshot` and `remove_teamlogo`:
on a dict, delete the targeted key if present and recurse into the
remaining values; on a list, recurse into every element; leave scalars
untouched.  The Python original mutates in place; this is the same
transform written as a pure function. -/
def removeKey (k : String) : Json → Json
  | .null => .null
  | .bool b => .bool b
  | .num n => .num n
  | .str s => .str s
  | .arr xs => .arr (removeKeyList k xs)
  | .obj fs => .obj (removeKeyFields k fs)

/-- `removeKey` mapped over the elements of a JSON list. -/
def removeKeyList (k : String) : List Json → List Json
  | [] => []
  | x :: xs => removeKey k x :: removeKeyList k xs

/-- Dict members after `del data[k]` and recursion into the remaining
values: members named `k` are dropped, all others keep their key and
order and get their value rewritten. -/
def removeKeyFields (k : String) : List (String × Json) → List (String × Json)
  | [] => []
  | (k2, v) :: fs =>
    if k2 = k then removeKeyFields k fs
    else (k2, removeKey k v) :: removeKeyFields k fs
end

/-- `remove_headshot` from actions.py. -/
def remove_headshot : Json → Json := removeKey "headshot"

/-- `remove_teamlogo` from actions.py. -/
def remove_teamlogo : Json → Json := removeKey "teamLogo"

mutual
/-- Whether the key `k` occurs as a dict key anywhere in the tree. -/
def occursKey (k : String) : Json → Bool
  | .null => false
  | .bool _ => false
  | .num _ => false
  | .str _ => false
  | .arr xs => occursKeyList k xs
  | .obj fs => occursKeyFields k fs

/-- `occursKey` over the elements of a JSON list. -/
def occursKeyList (k : String) : List Json → Bool
  | [] => false
  | x :: xs => occursKey k x || occursKeyList k xs

/-- `occursKey` over dict members: the key itself, or below any value. -/
def occursKeyFields (k : String) : List (String × Json) → Bool
  | [] => false
  | (k2, v) :: fs => k2 == k || occursKey k v || occursKeyFields k fs
end

/-- Python `str.lower()` (the source only feeds it ASCII team names and
abbreviations, on which lowercasing is characterwise). -/
def pyLower (s : String) : String := String.mk (s.data.map Char.toLower)

/-- Whether the first list is a prefix of the second. -/
def startsWithChars : List Char → List Char → Bool
  | [], _ => true
  | _ :: _, [] => false
  | a :: as, b :: bs => a = b && startsWithChars as bs

/-- Whether `needle` occurs as a contiguous run inside `haystack`:
checked at every suffix. -/
def subOf (needle : List Char) : List Char → Bool
  | [] => startsWithChars needle []
  | c :: cs => startsWithChars needle (c :: cs) || subOf needle cs

/-- Python `needle in haystack` on strings (substring test). -/
def strContains (haystack needle : String) : Bool :=
  subOf needle.data haystack.data

/-- One entry of the persisted team directory: the dict
`{"team_name": ..., "team_abbreviation": ...}` written by `get_teams`. -/
structure TeamRecord where
  team_name : String
  team_abbreviation : String
deriving DecidableEq, Inhabited

/-- The match test of the loop in `get_team_abbreviation`:
`query.lower() in team["team_name"].lower() or query.lower() in
team["team_abbreviation"].lower()`. -/
def teamMatches (query : String) (team : TeamRecord) : Bool :=
  strContains (pyLower team.team_name) (pyLower query) ||
  strContains (pyLower team.team_abbreviation) (pyLower query)

/-- The errors an action can surface, named as in the specification. -/
inductive Err where
  | NotFoundError
  | UpstreamError (status : Nat)
  | EmptyResultError (team : String)
  | ExtractionError
deriving DecidableEq

/-- `get_team_abbreviation` from actions.py, run against a given loaded
directory: scan the records in order, return the abbreviation of the
first match, raise `ValueError "Team not found"` (here `NotFoundError`)
if none matches. -/
def get_team_abbreviation : List TeamRecord → String → Except Err String
  | [], _ => .error .NotFoundError
  | team :: rest, query =>
    if teamMatches query team then .ok team.team_abbreviation
    else get_team_abbreviation rest query

/-- An upstream HTTP response: status code and JSON body. -/
structure HttpResponse where
  status : Nat
  body : Json

/-- `response.raise_for_status()`: raises for any 4xx or 5xx status. -/
def raise_for_status (r : HttpResponse) : Except Err Unit :=
  if 400 ≤ r.status ∧ r.status < 600 then .error (.UpstreamError r.status) else .ok ()

/-- A file written by `write_data_to_json`: target name and JSON content. -/
abbrev FileWrite := String × Json

/-- `standing.get("teamName")["default"]` (resp. `teamAbbrev`): succeeds
only on a dict holding a "default" member; `None` or any other shape
makes the Python subscript raise. -/
def getDefault (j : Json) : Option Json :=
  match j with
  | .obj fs => lookupField "default" fs
  | _ => none

/-- One iteration of the extraction loop of `get_teams`: build
`{"team_name": standing.get("teamName")["default"], "team_abbreviation":
standing.get("teamAbbrev")["default"]}`, `none` when the Python
expression would raise. -/
def extractTeam (standing : Json) : Option Json :=
  match standing with
  | .obj fs =>
    match lookupField "teamName" fs with
    | none => none
    | some tn =>
      match getDefault tn with
      | none => none
      | some tnd =>
        match lookupField "teamAbbrev" fs with
        | none => none
        | some ta =>
          match getDefault ta with
          | none => none
          | some tad =>
            some (.obj [("team_name", tnd), ("team_abbreviation", tad)])
  | _ => none

/-- The whole extraction loop of `get_teams`: all entries in order, or
`none` as soon as one entry makes the loop raise. -/
def extractTeams : List Json → Option (List Json)
  | [] => some []
  | s :: rest =>
    match extractTeam s with
    | none => none
    | some t =>
      match extractTeams rest with
      | none => none
      | some ts => some (t :: ts)

/-- The precondition under which one standings entry extracts cleanly:
a dict whose "teamName" and "teamAbbrev" members are dicts holding a
"default" member. -/
def standingWellFormed (s : Json) : Bool :=
  match s with
  | .obj fs =>
    (match lookupField "teamName" fs with
     | some (.obj g) => (lookupField "default" g).isSome
     | _ => false) &&
    (match lookupField "teamAbbrev" fs with
     | some (.obj g) => (lookupField "default" g).isSome
     | _ => false)
  | _ => false

/-- `get_teams` from actions.py: GET /standings/now, raise for a bad
status, read `data.get("standings", [])`, build one
`{team_name, team_abbreviation}` dict per entry, persist the list as
"teams", return it.  A body or entry shape on which the Python loop
would raise yields `ExtractionError`. -/
def get_teams (resp : HttpResponse) : Except Err (Json × List FileWrite) :=
  match raise_for_status resp with
  | .error e => .error e
  | .ok _ =>
    match resp.body with
    | .obj fs =>
      match (lookupField "standings" fs).getD (.arr []) with
      | .arr items =>
        match extractTeams items with
        | some teams => .ok (.arr teams, [("teams", .arr teams)])
        | none => .error .ExtractionError
      | _ => .error .ExtractionError
    | _ => .error .ExtractionError

set_option linter.unusedVariables false in
/-- `get_team_roster` from actions.py: resolve the team, GET the roster,
raise for a bad status, strip headshots, raise `ActionError` (here
`EmptyResultError`) on a falsy payload, persist the result under a name
keyed by the abbreviation, return it.  The `refresh` flag is accepted
and never read, as in the source. -/
def get_team_roster (teams : List TeamRecord) (team_name_or_abbreviation : String)
    (refresh : Bool) (resp : HttpResponse) : Except Err (Json × List FileWrite) :=
  match get_team_abbreviation teams team_name_or_abbreviation with
  | .error e => .error e
  | .ok abbreviation =>
    match raise_for_status resp with
    | .error e => .error e
    | .ok _ =>
      let data := remove_headshot resp.body
      if data.falsy then .error (.EmptyResultError abbreviation)
      else .ok (data, [("team_" ++ abbreviation ++ "_roster", data)])

/-- `get_player_by_id` from actions.py: GET, raise for a bad status,
return the body unchanged. -/
def get_player_by_id (resp : HttpResponse) : Except Err (Json × List FileWrite) :=
  match raise_for_status resp with
  | .error e => .error e
  | .ok _ => .ok (resp.body, [])

/-- `get_team_scoreboard` from actions.py: resolve, GET, raise for a bad
status, raise `EmptyResultError` on a falsy body, return it. -/
def get_team_scoreboard (teams : List TeamRecord) (team_name_or_abbreviation : String)
    (resp : HttpResponse) : Except Err (Json × List FileWrite) :=
  match get_team_abbreviation teams team_name_or_abbreviation with
  | .error e => .error e
  | .ok abbreviation =>
    match raise_for_status resp with
    | .error e => .error e
    | .ok _ =>
      if resp.body.falsy then .error (.EmptyResultError abbreviation)
      else .ok (resp.body, [])

/-- `get_standings_now` from actions.py: GET, raise for a bad status,
return the body unchanged. -/
def get_standings_now (resp : HttpResponse) : Except Err (Json × List FileWrite) :=
  match raise_for_status resp with
  | .error e => .error e
  | .ok _ => .ok (resp.body, [])

/-- `get_goalie_stat_leaders` from actions.py: GET, raise for a bad
status, strip headshots then team logos, return the result (no
emptiness check). -/
def get_goalie_stat_leaders (resp : HttpResponse) : Except Err (Json × List FileWrite) :=
  match raise_for_status resp with
  | .error e => .error e
  | .ok _ => .ok (remove_teamlogo (remove_headshot resp.body), [])

/-- `get_skater_stat_leaders` from actions.py: same shape as the goalie
leaders endpoint. -/
def get_skater_stat_leaders (resp : HttpResponse) : Except Err (Json × List FileWrite) :=
  match raise_for_status resp with
  | .error e => .error e
  | .ok _ => .ok (remove_teamlogo (remove_headshot resp.body), [])

/-- `get_team_stats` from actions.py: resolve, GET, raise for a bad
status, strip headshots and team logos, raise `EmptyResultError` on a
falsy result, return it. -/
def get_team_stats (teams : List TeamRecord) (team_name_or_abbreviation : String)
    (resp : HttpResponse) : Except Err (Json × List FileWrite) :=
  match get_team_abbreviation teams team_name_or_abbreviation with
  | .error e => .error e
  | .ok abbreviation =>
    match raise_for_status resp with
    | .error e => .error e
    | .ok _ =>
      let data := remove_teamlogo (remove_headshot resp.body)
      if data.falsy then .error (.EmptyResultError abbreviation)
      else .ok (data, [])

/-- `get_team_schedule` from actions.py: resolve, GET, raise for a bad
status, raise `EmptyResultError` on a falsy body, return it. -/
def get_team_schedule (teams : List TeamRecord) (team_name_or_abbreviation : String)
    (resp : HttpResponse) : Except Err (Json × List FileWrite) :=
  match get_team_abbreviation teams team_name_or_abbreviation with
  | .error e => .error e
  | .ok abbreviation =>
    match raise_for_status resp with
    | .error e => .error e
    | .ok _ =>
      if resp.body.falsy then .error (.EmptyResultError abbreviation)
      else .ok (resp.body, [])

/-- `get_daily_scores` from actions.py: GET, raise for a bad status,
return the body unchanged. -/
def get_daily_scores (resp : HttpResponse) : Except Err (Json × List FileWrite) :=
  match raise_for_status resp with
  | .error e => .error e
  | .ok _ => .ok (resp.body, [])

/-- `get_scoreboard` from actions.py: GET, raise for a bad status,
return the body unchanged. -/
def get_scoreboard (resp : HttpResponse) : Except Err (Json × List FileWrite) :=
  match raise_for_status resp with
  | .error e => .error e
  | .ok _ => .ok (resp.body, [])

/-- The writes an action run performs: a run that raises writes nothing,
because every `write_data_to_json` call in the source sits after the
status check and emptiness check of its action. -/
def writesOf : Except Err (Json × List FileWrite) → List FileWrite
  | .ok (_, ws) => ws
  | .error _ => []

/-- Modelled from the spec: the JSON tree `write_data_to_json` persists
for a TeamDirectory (file I/O and the textual JSON encoding by
`json.dumps` are external library capabilities; the repository-owned
content is one `{"team_name": ..., "team_abbreviation": ...}` dict per
record, in order). -/
def encodeTeam (t : TeamRecord) : Json :=
  .obj [("team_name", .str t.team_name), ("team_abbreviation", .str t.team_abbreviation)]

/-- Modelled from the spec: the persisted directory file as a JSON tree,
a JSON array of the encoded records in directory order. -/
def encodeDirectory (D : List TeamRecord) : Json :=
  .arr (D.map encodeTeam)

/-- Modelled from the spec: the record the resolution loader reads back
from one persisted dict, via the `team["team_name"]` and
`team["team_abbreviation"]` accesses in `get_team_abbreviation`. -/
def decodeTeam (j : Json) : Option TeamRecord :=
  match j with
  | .obj fs =>
    match lookupField "team_name" fs, lookupField "team_abbreviation" fs with
    | some (.str n), some (.str a) => some ⟨n, a⟩
    | _, _ => none
  | _ => none

/-- Modelled from the spec: reading the whole persisted array back as an
ordered record sequence. -/
def decodeTeams : List Json → Option (List TeamRecord)
  | [] => some []
  | j :: js =>
    match decodeTeam j with
    | none => none
    | some t =>
      match decodeTeams js with
      | none => none
      | some ts => some (t :: ts)

/-- Modelled from the spec: the loader side of the round trip, on the
tree `json.load` yields for the persisted file. -/
def decodeDirectory (j : Json) : Option (List TeamRecord) :=
  match j with
  | .arr xs => decodeTeams xs
  | _ => none

/-! ## Helper lemmas -/

/-- The empty character list occurs in every haystack. -/
theorem subOf_nil (l : List Char) : subOf [] l = true := by
  cases l <;> simp [subOf, startsWithChars]

/-- The empty query matches every record: its lowercase form is the
empty string, a substring of everything. -/
theorem teamMatches_empty (u : TeamRecord) : teamMatches "" u = true := by
  simp [teamMatches, strContains, pyLower, subOf_nil]

mutual
/-- Rerunning the stripping traversal changes nothing: the targeted key
is gone everywhere after the first pass. -/
theorem removeKey_idem (k : String) : ∀ t, removeKey k (removeKey k t) = removeKey k t
  | .null => rfl
  | .bool _ => rfl
  | .num _ => rfl
  | .str _ => rfl
  | .arr xs => by simp [removeKey, removeKeyList_idem k xs]
  | .obj fs => by simp [removeKey, removeKeyFields_idem k fs]

/-- List part of the idempotence induction. -/
theorem removeKeyList_idem (k : String) :
    ∀ xs, removeKeyList k (removeKeyList k xs) = removeKeyList k xs
  | [] => rfl
  | x :: xs => by simp [removeKeyList, removeKey_idem k x, removeKeyList_idem k xs]

/-- Member part of the idempotence induction. -/
theorem removeKeyFields_idem (k : String) :
    ∀ fs, removeKeyFields k (removeKeyFields k fs) = removeKeyFields k fs
  | [] => rfl
  | (k2, v) :: fs => by
    by_cases h : k2 = k <;>
      simp [removeKeyFields, h, removeKey_idem k v, removeKeyFields_idem k fs]
end

/-- On a list node the traversal is elementwise: length and order are
preserved. -/
theorem removeKeyList_eq (k : String) :
    ∀ xs : List Json, removeKeyList k xs = xs.map fun x => removeKey k x
  | [] => rfl
  | x :: xs => by simp [removeKeyList, removeKeyList_eq k xs]

/-- On a dict node the traversal drops exactly the members named `k` and
rewrites the values of the others, keeping keys and order. -/
theorem removeKeyFields_eq (k : String) :
    ∀ fs : List (String × Json),
      removeKeyFields k fs = (fs.filter fun p => p.1 ≠ k).map fun p => (p.1, removeKey k p.2)
  | [] => rfl
  | (k2, v) :: fs => by
    by_cases h : k2 = k <;>
      simp [removeKeyFields, h, removeKeyFields_eq k fs]

mutual
/-- Where the targeted key does not occur, the traversal is the
identity. -/
theorem removeKey_noop (k : String) : ∀ t, occursKey k t = false → removeKey k t = t
  | .null, _ => rfl
  | .bool _, _ => rfl
  | .num _, _ => rfl
  | .str _, _ => rfl
  | .arr xs, h => by
    simp only [occursKey] at h
    simp [removeKey, removeKeyList_noop k xs h]
  | .obj fs, h => by
    simp only [occursKey] at h
    simp [removeKey, removeKeyFields_noop k fs h]

/-- List part of the no-occurrence induction. -/
theorem removeKeyList_noop (k : String) :
    ∀ xs, occursKeyList k xs = false → removeKeyList k xs = xs
  | [], _ => rfl
  | x :: xs, h => by
    simp [occursKeyList] at h
    simp [removeKeyList, removeKey_noop k x h.1, removeKeyList_noop k xs h.2]

/-- Member part of the no-occurrence induction. -/
theorem removeKeyFields_noop (k : String) :
    ∀ fs, occursKeyFields k fs = false → removeKeyFields k fs = fs
  | [], _ => rfl
  | (k2, v) :: fs, h => by
    simp [occursKeyFields] at h
    simp [removeKeyFields, h.1.1, removeKey_noop k v h.1.2, removeKeyFields_noop k fs h.2]
end

/-- `raise_for_status` either passes or reports the response status as
an upstream failure. -/
theorem raise_for_status_cases (resp : HttpResponse) :
    raise_for_status resp = .ok () ∨
    raise_for_status resp = .error (.UpstreamError resp.status) := by
  unfold raise_for_status
  split
  · right; rfl
  · left; rfl

/-- One standings entry extracts cleanly exactly when it is well formed:
a dict whose `teamName` and `teamAbbrev` members are dicts holding a
`default` member. -/
theorem extractTeam_isSome (s : Json) : (extractTeam s).isSome = standingWellFormed s := by
  cases s with
  | obj fs =>
    simp only [extractTeam, standingWellFormed]
    cases h1 : lookupField "teamName" fs with
    | none => simp
    | some tn =>
      cases tn <;> simp [getDefault]
      case obj g =>
        cases h2 : lookupField "default" g with
        | none => simp
        | some d =>
          simp only [Option.isSome_some, Bool.true_and]
          cases h3 : lookupField "teamAbbrev" fs with
          | none => simp
          | some ta =>
            cases ta <;> simp [getDefault]
            case obj g2 =>
              cases h4 : lookupField "default" g2 <;> simp
  | null => rfl
  | bool b => rfl
  | num n => rfl
  | str s => rfl
  | arr xs => rfl

/-- When every standings entry is well formed, the extraction loop of
`get_teams` runs to completion. -/
theorem extractTeams_total (items : List Json)
    (h : ∀ s ∈ items, standingWellFormed s = true) :
    ∃ teams, extractTeams items = some teams := by
  induction items with
  | nil => exact ⟨[], rfl⟩
  | cons s rest ih =>
    have hs : (extractTeam s).isSome = true := by
      rw [extractTeam_isSome]; exact h s (by simp)
    obtain ⟨t, ht⟩ := Option.isSome_iff_exists.mp hs
    obtain ⟨ts, hts⟩ := ih fun u hu => h u (by simp [hu])
    exact ⟨t :: ts, by simp [extractTeams, ht, hts]⟩

/-! ## Claims -/

/-- C1: for every directory D and query q, if the lowercased q is a
substring of some record's lowercased name or lowercased abbreviation,
then `get_team_abbreviation` run against D returns the abbreviation
field of the first such matching record in D's order, unchanged in
case. -/
theorem resolve_first_match (D : List TeamRecord) (q : String)
    (h : ∃ t ∈ D, teamMatches q t = true) :
    ∃ pre t post, D = pre ++ t :: post ∧
      (∀ u ∈ pre, teamMatches q u = false) ∧
      teamMatches q t = true ∧
      get_team_abbreviation D q = .ok t.team_abbreviation := by
  induction D with
  | nil => simp at h
  | cons a rest ih =>
    by_cases ha : teamMatches q a = true
    · exact ⟨[], a, rest, rfl, by simp, ha, by simp [get_team_abbreviation, ha]⟩
    · have hna : teamMatches q a = false := by simpa using ha
      obtain ⟨t, ht, hmt⟩ := h
      have ht2 : t ∈ rest := by
        rcases List.mem_cons.mp ht with h1 | h1
        · subst h1; simp [hmt] at hna
        · exact h1
      obtain ⟨pre, t2, post, hdec, hpre, hm2, hres⟩ := ih ⟨t, ht2, hmt⟩
      refine ⟨a :: pre, t2, post, by rw [hdec]; rfl, ?_, hm2, ?_⟩
      · intro u hu
        rcases List.mem_cons.mp hu with h1 | h1
        · subst h1; exact hna
        · exact hpre u h1
      · simp [get_team_abbreviation, hna, hres]

/-- Witness for C1: a two-record directory where only the second record
matches the query "sabres", so resolution skips the first record and
returns "BUF". -/
theorem resolve_first_match_checked :
    (∃ t ∈ [TeamRecord.mk "Boston Bruins" "BOS", TeamRecord.mk "Buffalo Sabres" "BUF"],
        teamMatches "sabres" t = true) ∧
    (∃ pre t post,
      [TeamRecord.mk "Boston Bruins" "BOS", TeamRecord.mk "Buffalo Sabres" "BUF"] =
        pre ++ t :: post ∧
      (∀ u ∈ pre, teamMatches "sabres" u = false) ∧
      teamMatches "sabres" t = true ∧
      get_team_abbreviation
        [TeamRecord.mk "Boston Bruins" "BOS", TeamRecord.mk "Buffalo Sabres" "BUF"]
        "sabres" = .ok t.team_abbreviation) := by
  have h : ∃ t ∈ [TeamRecord.mk "Boston Bruins" "BOS", TeamRecord.mk "Buffalo Sabres" "BUF"],
      teamMatches "sabres" t = true :=
    ⟨TeamRecord.mk "Buffalo Sabres" "BUF", by decide, by decide⟩
  exact ⟨h, resolve_first_match _ "sabres" h⟩

/-- C2: for every query q, `get_team_abbreviation` run against an empty
directory fails with `NotFoundError` rather than returning any
abbreviation. -/
theorem resolve_empty_directory (q : String) :
    get_team_abbreviation [] q = .error .NotFoundError := rfl

/-- C3: for every acyclic JSON tree, applying the stripping traversal of
`remove_headshot` (resp. `remove_teamlogo`) twice yields the same tree
as applying it once. -/
theorem strip_idem (t : Json) :
    remove_headshot (remove_headshot t) = remove_headshot t ∧
    remove_teamlogo (remove_teamlogo t) = remove_teamlogo t :=
  ⟨removeKey_idem "headshot" t, removeKey_idem "teamLogo" t⟩

/-- C4: the stripping traversal (`remove_headshot` and `remove_teamlogo`
are its instances at "headshot" and "teamLogo") leaves every scalar leaf
unchanged; on a dict it removes exactly the members under the targeted
key and keeps every other member's key, order and (recursively
rewritten) value; on a list it acts elementwise, preserving length and
order; and it is the identity on any subtree in which the targeted key
does not occur. -/
theorem strip_shape (k : String) :
    remove_headshot = removeKey "headshot" ∧
    remove_teamlogo = removeKey "teamLogo" ∧
    (∀ t, Json.isScalar t = true → removeKey k t = t) ∧
    (∀ fs, removeKey k (.obj fs) =
      .obj ((fs.filter fun p => p.1 ≠ k).map fun p => (p.1, removeKey k p.2))) ∧
    (∀ xs, removeKey k (.arr xs) = .arr (xs.map fun x => removeKey k x)) ∧
    (∀ t, occursKey k t = false → removeKey k t = t) := by
  refine ⟨rfl, rfl, ?_, ?_, ?_, removeKey_noop k⟩
  · intro t h
    cases t <;> first | rfl | simp [Json.isScalar] at h
  · intro fs
    simp [removeKey, removeKeyFields_eq k fs]
  · intro xs
    simp [removeKey, removeKeyList_eq k xs]

/-- Witness for C4: the scalar clause at a string leaf, and the
no-occurrence clause at a dict without the targeted key. -/
theorem strip_shape_checked :
    (Json.isScalar (Json.str "url") = true ∧
      removeKey "headshot" (Json.str "url") = Json.str "url") ∧
    (occursKey "headshot" (Json.obj [("name", Json.str "A")]) = false ∧
      removeKey "headshot" (Json.obj [("name", Json.str "A")]) =
        Json.obj [("name", Json.str "A")]) :=
  ⟨⟨rfl, (strip_shape "headshot").2.2.1 _ rfl⟩,
   ⟨rfl, (strip_shape "headshot").2.2.2.2.2 _ rfl⟩⟩

/-- C5: when the upstream call succeeds but the payload is falsy after
any stripping, the four team-scoped operations fail with
`EmptyResultError`; the non-team-scoped operations never produce
`EmptyResultError` and return their payload even when it is empty. -/
theorem empty_result_policy :
    (∀ teams q a refresh resp, get_team_abbreviation teams q = .ok a →
      raise_for_status resp = .ok () → (remove_headshot resp.body).falsy = true →
      get_team_roster teams q refresh resp = .error (.EmptyResultError a)) ∧
    (∀ teams q a resp, get_team_abbreviation teams q = .ok a →
      raise_for_status resp = .ok () → resp.body.falsy = true →
      get_team_scoreboard teams q resp = .error (.EmptyResultError a)) ∧
    (∀ teams q a resp, get_team_abbreviation teams q = .ok a →
      raise_for_status resp = .ok () →
      (remove_teamlogo (remove_headshot resp.body)).falsy = true →
      get_team_stats teams q resp = .error (.EmptyResultError a)) ∧
    (∀ teams q a resp, get_team_abbreviation teams q = .ok a →
      raise_for_status resp = .ok () → resp.body.falsy = true →
      get_team_schedule teams q resp = .error (.EmptyResultError a)) ∧
    (∀ resp a, get_teams resp ≠ .error (.EmptyResultError a)) ∧
    (∀ resp a, get_player_by_id resp ≠ .error (.EmptyResultError a)) ∧
    (∀ resp a, get_standings_now resp ≠ .error (.EmptyResultError a)) ∧
    (∀ resp a, get_goalie_stat_leaders resp ≠ .error (.EmptyResultError a)) ∧
    (∀ resp a, get_skater_stat_leaders resp ≠ .error (.EmptyResultError a)) ∧
    (∀ resp a, get_daily_scores resp ≠ .error (.EmptyResultError a)) ∧
    (∀ resp a, get_scoreboard resp ≠ .error (.EmptyResultError a)) ∧
    (∀ resp, raise_for_status resp = .ok () →
      get_player_by_id resp = .ok (resp.body, []) ∧
      get_standings_now resp = .ok (resp.body, []) ∧
      get_goalie_stat_leaders resp = .ok (remove_teamlogo (remove_headshot resp.body), []) ∧
      get_skater_stat_leaders resp = .ok (remove_teamlogo (remove_headshot resp.body), []) ∧
      get_daily_scores resp = .ok (resp.body, []) ∧
      get_scoreboard resp = .ok (resp.body, [])) ∧
    (∀ resp fs, raise_for_status resp = .ok () → resp.body = .obj fs →
      lookupField "standings" fs = some (.arr []) →
      get_teams resp = .ok (.arr [], [("teams", .arr [])])) := by
  refine ⟨?_, ?_, ?_, ?_, ?_, ?_, ?_, ?_, ?_, ?_, ?_, ?_, ?_⟩
  · intro teams q a refresh resp h1 h2 h3
    simp [get_team_roster, h1, h2, h3]
  · intro teams q a resp h1 h2 h3
    simp [get_team_scoreboard, h1, h2, h3]
  · intro teams q a resp h1 h2 h3
    simp [get_team_stats, h1, h2, h3]
  · intro teams q a resp h1 h2 h3
    simp [get_team_schedule, h1, h2, h3]
  · intro resp a h
    rcases raise_for_status_cases resp with h1 | h1
    · rw [get_teams, h1] at h
      rcases hb : resp.body <;> rw [hb] at h <;> simp at h
      case obj fs =>
        rcases hs : (lookupField "standings" fs).getD (.arr []) <;> rw [hs] at h <;> simp at h
        case arr items =>
          rcases he : extractTeams items <;> rw [he] at h <;> simp at h
    · rw [get_teams, h1] at h
      simp at h
  · intro resp a h
    rcases raise_for_status_cases resp with h1 | h1 <;> simp [get_player_by_id, h1] at h
  · intro resp a h
    rcases raise_for_status_cases resp with h1 | h1 <;> simp [get_standings_now, h1] at h
  · intro resp a h
    rcases raise_for_status_cases resp with h1 | h1 <;> simp [get_goalie_stat_leaders, h1] at h
  · intro resp a h
    rcases raise_for_status_cases resp with h1 | h1 <;> simp [get_skater_stat_leaders, h1] at h
  · intro resp a h
    rcases raise_for_status_cases resp with h1 | h1 <;> simp [get_daily_scores, h1] at h
  · intro resp a h
    rcases raise_for_status_cases resp with h1 | h1 <;> simp [get_scoreboard, h1] at h
  · intro resp h1
    exact ⟨by simp [get_player_by_id, h1], by simp [get_standings_now, h1],
      by simp [get_goalie_stat_leaders, h1], by simp [get_skater_stat_leaders, h1],
      by simp [get_daily_scores, h1], by simp [get_scoreboard, h1]⟩
  · intro resp fs h1 h2 h3
    simp [get_teams, h1, h2, h3, extractTeams]

/-- Witness for C5: a resolved team, a 200 response with an empty dict
body, and the resulting `EmptyResultError` from the roster action; the
same response passed through the global scoreboard action unchanged. -/
theorem empty_result_policy_checked :
    get_team_abbreviation [TeamRecord.mk "Boston Bruins" "BOS"] "BOS" = .ok "BOS" ∧
    raise_for_status (HttpResponse.mk 200 (Json.obj [])) = .ok () ∧
    (remove_headshot (Json.obj [])).falsy = true ∧
    get_team_roster [TeamRecord.mk "Boston Bruins" "BOS"] "BOS" false
      (HttpResponse.mk 200 (Json.obj [])) = .error (.EmptyResultError "BOS") ∧
    get_scoreboard (HttpResponse.mk 200 (Json.obj [])) = .ok (Json.obj [], []) :=
  ⟨rfl, rfl, rfl,
   empty_result_policy.1 _ "BOS" "BOS" false (HttpResponse.mk 200 (Json.obj [])) rfl rfl rfl,
   ((empty_result_policy.2.2.2.2.2.2.2.2.2.2.2.1 (HttpResponse.mk 200 (Json.obj [])) rfl).2.2.2.2.2)⟩

/-- C6: on a non-success upstream status, the two persisting operations
fail with `UpstreamError` and perform no file write. -/
theorem upstream_failure_no_write :
    (∀ resp, 400 ≤ resp.status → resp.status < 600 →
      get_teams resp = .error (.UpstreamError resp.status) ∧
      writesOf (get_teams resp) = []) ∧
    (∀ teams q a refresh resp, get_team_abbreviation teams q = .ok a →
      400 ≤ resp.status → resp.status < 600 →
      get_team_roster teams q refresh resp = .error (.UpstreamError resp.status) ∧
      writesOf (get_team_roster teams q refresh resp) = []) := by
  constructor
  · intro resp h1 h2
    have h : raise_for_status resp = .error (.UpstreamError resp.status) := by
      simp [raise_for_status, h1, h2]
    refine ⟨by rw [get_teams, h], ?_⟩
    rw [get_teams, h]
    rfl
  · intro teams q a refresh resp hq h1 h2
    have h : raise_for_status resp = .error (.UpstreamError resp.status) := by
      simp [raise_for_status, h1, h2]
    refine ⟨by simp [get_team_roster, hq, h], ?_⟩
    simp [get_team_roster, hq, h, writesOf]

/-- Witness for C6: a 404 response makes both persisting operations fail
upstream with nothing written. -/
theorem upstream_failure_no_write_checked :
    (400 ≤ 404 ∧ 404 < 600) ∧
    get_team_abbreviation [TeamRecord.mk "Boston Bruins" "BOS"] "BOS" = .ok "BOS" ∧
    (get_teams (HttpResponse.mk 404 Json.null) = .error (.UpstreamError 404) ∧
      writesOf (get_teams (HttpResponse.mk 404 Json.null)) = []) ∧
    (get_team_roster [TeamRecord.mk "Boston Bruins" "BOS"] "BOS" false
        (HttpResponse.mk 404 Json.null) = .error (.UpstreamError 404) ∧
      writesOf (get_team_roster [TeamRecord.mk "Boston Bruins" "BOS"] "BOS" false
        (HttpResponse.mk 404 Json.null)) = []) :=
  ⟨⟨by decide, by decide⟩, rfl,
   upstream_failure_no_write.1 (HttpResponse.mk 404 Json.null) (by decide) (by decide),
   upstream_failure_no_write.2 _ "BOS" "BOS" false (HttpResponse.mk 404 Json.null)
     rfl (by decide) (by decide)⟩

/-- C7: the empty-string query matches every record, and on any
non-empty directory `get_team_abbreviation` returns the abbreviation of
the first record. -/
theorem empty_query_resolves_first (t : TeamRecord) (rest : List TeamRecord) :
    (∀ u : TeamRecord, teamMatches "" u = true) ∧
    get_team_abbreviation (t :: rest) "" = .ok t.team_abbreviation :=
  ⟨teamMatches_empty, by simp [get_team_abbreviation, teamMatches_empty t]⟩

/-- C8: persisting a TeamDirectory and reloading it through the access
pattern of the resolution loader yields the same ordered record
sequence. -/
theorem directory_roundtrip (D : List TeamRecord) :
    decodeDirectory (encodeDirectory D) = some D := by
  induction D with
  | nil => rfl
  | cons t rest ih =>
    have ih2 : decodeTeams (rest.map encodeTeam) = some rest := ih
    have ht : decodeTeam (encodeTeam t) = some t := rfl
    simp [encodeDirectory, decodeDirectory, decodeTeams, ht, ih2]

/-- C9: the refresh flag of `get_team_roster` has no influence: runs
with refresh set and cleared, against the same directory and the same
upstream response, agree exactly (result and writes alike). -/
theorem refresh_flag_no_influence (teams : List TeamRecord) (q : String)
    (r1 r2 : Bool) (resp : HttpResponse) :
    get_team_roster teams q r1 resp = get_team_roster teams q r2 resp := rfl

/-- C10: the extraction in `get_teams` is not total: a successful
response whose standings entry is an empty dict makes it fail with
`ExtractionError` instead of skipping the entry; an entry extracts
cleanly exactly when it holds both keys mapped to dicts with a
"default" member, and under that precondition on every entry the whole
operation succeeds. -/
theorem get_teams_extraction_partial :
    (raise_for_status (HttpResponse.mk 200
        (Json.obj [("standings", Json.arr [Json.obj []])])) = .ok () ∧
      get_teams (HttpResponse.mk 200
        (Json.obj [("standings", Json.arr [Json.obj []])])) = .error .ExtractionError) ∧
    (∀ s, (extractTeam s).isSome = standingWellFormed s) ∧
    (∀ resp fs items, raise_for_status resp = .ok () → resp.body = .obj fs →
      lookupField "standings" fs = some (.arr items) →
      (∀ s ∈ items, standingWellFormed s = true) →
      ∃ teams, extractTeams items = some teams ∧
        get_teams resp = .ok (.arr teams, [("teams", .arr teams)])) := by
  refine ⟨⟨rfl, rfl⟩, extractTeam_isSome, ?_⟩
  intro resp fs items h1 h2 h3 h4
  obtain ⟨teams, hts⟩ := extractTeams_total items h4
  exact ⟨teams, hts, by simp [get_teams, h1, h2, h3, hts]⟩

/-- Witness for C10: a well-formed single-entry standings payload
extracts cleanly and `get_teams` succeeds on it. -/
theorem get_teams_extraction_partial_checked :
    (∀ s ∈ [Json.obj [("teamName", Json.obj [("default", Json.str "Boston Bruins")]),
                      ("teamAbbrev", Json.obj [("default", Json.str "BOS")])]],
        standingWellFormed s = true) ∧
    (∃ teams,
      extractTeams [Json.obj [("teamName", Json.obj [("default", Json.str "Boston Bruins")]),
                              ("teamAbbrev", Json.obj [("default", Json.str "BOS")])]] =
        some teams ∧
      get_teams (HttpResponse.mk 200 (Json.obj [("standings",
          Json.arr [Json.obj [("teamName", Json.obj [("default", Json.str "Boston Bruins")]),
                              ("teamAbbrev", Json.obj [("default", Json.str "BOS")])]])])) =
        .ok (.arr teams, [("teams", .arr teams)])) := by
  have h4 : ∀ s ∈ [Json.obj [("teamName", Json.obj [("default", Json.str "Boston Bruins")]),
                             ("teamAbbrev", Json.obj [("default", Json.str "BOS")])]],
      standingWellFormed s = true := by
    intro s hs
    rw [List.mem_singleton] at hs
    subst hs
    rfl
  exact ⟨h4, get_teams_extraction_partial.2.2 _ _ _ rfl rfl rfl h4⟩

end NHL
